import Mathlib

/-!
Shallow embedding of the session-scoped subprocess streaming orchestrator of
`src/server/index.ts` (the WebSocket chat handler `wsInstance.app.ws('/ws/chat/:sessionId', ...)`
together with the pure prompt-assembly and shell-escaping code inside the
`message` branch).

Modelling conventions:
* JavaScript strings are modelled as Lean `String`; `s.length` and
  `s.substring(0, n)` are modelled over characters (`strLen`, `strTake`).
* `uuid` and `Date` fields of messages are irrelevant to every claim and are
  omitted from `Msg`.
* The per-connection handler state is `ServerState`: the session record, the
  list of all child processes spawned so far for this session (each with the
  closure variable `assistantContent` of its turn), and `activeProc`, the
  entry of the `activeProcesses` map for this session (an index into `procs`).
* Inbound frames and child-process I/O events are the inputs of a step
  function `step : ServerState → Ev → ServerState × List Frame`; the returned
  frames are the JSON frames sent over the WebSocket, in order.
* `proc.kill()` sends a signal; the process is only gone once its `close`
  event fires.  The model therefore keeps a `killed` flag (signal sent) and an
  `alive` flag (close handler not yet run) separately.
-/

namespace CopilotServer

/-- Character count of a JS string (`s.length`), modelled over characters. -/
def strLen (s : String) : Nat := s.toList.length

/-- `s.substring(0, n)` of a JS string, modelled over characters. -/
def strTake (s : String) (n : Nat) : String := String.mk (s.toList.take n)

/-- Message roles, from the `Message` interface of `src/server/index.ts`. -/
inductive Role where
  | user
  | assistant
  | system
deriving DecidableEq, Repr

/-- A chat message: `role` and `content` (ids and timestamps omitted). -/
structure Msg where
  role : Role
  content : String
deriving DecidableEq, Repr

/-! ## Prompt assembly (`fullPrompt`, lines 598-615) -/

/-- One rendered history line: `` `${role}: ${content}` `` with the
2000-character truncation of lines 607-610. -/
def renderMsg (m : Msg) : String :=
  let role := if m.role = Role.user then "Human" else "Assistant"
  let content :=
    if 2000 < strLen m.content then strTake m.content 2000 ++ "... [truncated]"
    else m.content
  role ++ ": " ++ content

/-- JS `Array.prototype.join(sep)`. -/
def joinSep (sep : String) : List String → String
  | [] => ""
  | [x] => x
  | x :: y :: ys => x ++ sep ++ joinSep sep (y :: ys)

/-- The rendered conversation history: `previousMessages.map(...).join('\n\n')`. -/
def renderHistory (history : List Msg) : String :=
  joinSep "\n\n" (history.map renderMsg)

/-- `fullPrompt` of lines 600-615: the new content verbatim when there are no
previous messages, otherwise the history wrapper. -/
def buildPrompt (history : List Msg) (newContent : String) : String :=
  if history.isEmpty then newContent
  else
    "Here is our conversation history:\n\n" ++ renderHistory history ++
      "\n\nHuman: " ++ newContent ++
      "\n\nPlease respond to my latest message above, keeping our conversation context in mind."

/-! ## Shell escaping (`escapedPrompt`, lines 619-626) -/

/-- The backtick character. -/
def backtick : Char := Char.ofNat 96

/-- The carriage-return character. -/
def carriageReturn : Char := Char.ofNat 13

/-- The newline character. -/
def newlineChar : Char := Char.ofNat 10

/-- JS `s.replace(/target/g, repl)` for a single-character pattern. -/
def replAll (target : Char) (repl : List Char) (s : List Char) : List Char :=
  s.flatMap (fun c => if c = target then repl else [c])

/-- The chained `.replace` calls of lines 619-626 over the character list, in
source order: backslash, double quote, backtick, dollar, exclamation mark,
newline, and removal of carriage returns. -/
def escapeChars (l : List Char) : List Char :=
  replAll carriageReturn []
    (replAll newlineChar ['\\', 'n']
      (replAll '!' ['\\', '!']
        (replAll '$' ['\\', '$']
          (replAll backtick ['\\', backtick]
            (replAll '"' ['\\', '"']
              (replAll '\\' ['\\', '\\'] l))))))

/-- `escapedPrompt` as a function of `fullPrompt` (lines 619-626). -/
def escapeForShell (s : String) : String :=
  String.mk (escapeChars s.toList)

/-- Per-character escaping map: the specification-level description of the
escaping (each occurrence of each special character is escaped, carriage
returns are removed, everything else is unchanged). -/
def escapeSpecChar (c : Char) : List Char :=
  if c = '\\' then ['\\', '\\']
  else if c = '"' then ['\\', '"']
  else if c = backtick then ['\\', backtick]
  else if c = '$' then ['\\', '$']
  else if c = '!' then ['\\', '!']
  else if c = newlineChar then ['\\', 'n']
  else if c = carriageReturn then []
  else [c]

/-- Specification-level escaping function: apply `escapeSpecChar` to every
character independently. -/
def escapeSpec (s : String) : String :=
  String.mk (s.toList.flatMap escapeSpecChar)

/-! ## Continuation-identifier patterns (`sessionPatterns`, lines 648-653 and 673-679)

The JS code runs `text.match(pattern)` with case-insensitive regexes whose
captured group is `([a-zA-Z0-9-]+)`.  Each pattern is embedded as a
try-at-one-position function over character lists; `scanMatch` scans positions
left to right (the leftmost-match semantics of `String.match`). -/

/-- The regex class `[a-zA-Z0-9-]` of the captured group. -/
def isIdChar (c : Char) : Bool :=
  ('a' ≤ c && c ≤ 'z') || ('A' ≤ c && c ≤ 'Z') || ('0' ≤ c && c ≤ '9') || c = '-'

/-- JS `\s` (whitespace class), restricted to the ASCII whitespace characters
(space, tab, newline, carriage return, vertical tab, form feed); the wrapped
CLI's output never uses the exotic Unicode members of `\s`. -/
def isSpaceChar (c : Char) : Bool :=
  c = ' ' || c = Char.ofNat 9 || c = newlineChar || c = carriageReturn ||
    c = Char.ofNat 11 || c = Char.ofNat 12

/-- The class `[:\s]` of pattern 2's separator. -/
def isSepChar (c : Char) : Bool := c = ':' || isSpaceChar c

/-- Case-insensitive literal match: consume `lit` (given lowercased) from the
front of `s`, returning the remainder. -/
def matchLit : List Char → List Char → Option (List Char)
  | [], s => some s
  | _ :: _, [] => none
  | l :: lt, c :: ct => if c.toLower = l then matchLit lt ct else none

/-- The captured group `([a-zA-Z0-9-]+)`: the maximal nonempty run of id
characters at the current position. -/
def captureId (s : List Char) : Option String :=
  let cap := s.takeWhile isIdChar
  if cap.isEmpty then none else some (String.mk cap)

/-- `/Session ID: ([a-zA-Z0-9-]+)/i` at one position. -/
def tryPatSessionIdColon (s : List Char) : Option String :=
  match matchLit "session id: ".toList s with
  | none => none
  | some r => captureId r

/-- `/session[_-]?id[:\s]+([a-zA-Z0-9-]+)/i` at one position.  The optional
`[_-]` is tried greedily first, with the regex-backtracking fallback of
matching `id` directly. -/
def tryPatSessionUnderscoreId (s : List Char) : Option String :=
  match matchLit "session".toList s with
  | none => none
  | some r1 =>
    let afterId :=
      match r1 with
      | c :: rest =>
        if c = '_' || c = '-' then
          match matchLit "id".toList rest with
          | some r => some r
          | none => matchLit "id".toList r1
        else matchLit "id".toList r1
      | [] => none
    match afterId with
    | none => none
    | some r2 =>
      match r2 with
      | c :: _ =>
        if isSepChar c then captureId (r2.dropWhile isSepChar) else none
      | [] => none

/-- `/Resuming session ([a-zA-Z0-9-]+)/i` at one position. -/
def tryPatResuming (s : List Char) : Option String :=
  match matchLit "resuming session ".toList s with
  | none => none
  | some r => captureId r

/-- `/Session: ([a-zA-Z0-9-]+)/i` at one position. -/
def tryPatSessionColon (s : List Char) : Option String :=
  match matchLit "session: ".toList s with
  | none => none
  | some r => captureId r

/-- `/session=([a-zA-Z0-9-]+)/i` at one position (stderr list only). -/
def tryPatSessionEq (s : List Char) : Option String :=
  match matchLit "session=".toList s with
  | none => none
  | some r => captureId r

/-- Leftmost match: try the pattern at each position from the left. -/
def scanMatch (f : List Char → Option String) : List Char → Option String
  | [] => none
  | c :: t =>
    match f (c :: t) with
    | some r => some r
    | none => scanMatch f t

/-- The `sessionPatterns` array of the stdout handler (lines 648-653). -/
def stdoutPatterns : List (List Char → Option String) :=
  [tryPatSessionIdColon, tryPatSessionUnderscoreId, tryPatResuming, tryPatSessionColon]

/-- The `sessionPatterns` array of the stderr handler (lines 673-679). -/
def stderrPatterns : List (List Char → Option String) :=
  [tryPatSessionIdColon, tryPatSessionUnderscoreId, tryPatResuming, tryPatSessionColon,
    tryPatSessionEq]

/-- The `for (const pattern of sessionPatterns)` loop: the first pattern in
list order that matches anywhere in the chunk yields the capture. -/
def firstCapture : List (List Char → Option String) → List Char → Option String
  | [], _ => none
  | p :: ps, s =>
    match scanMatch p s with
    | some r => some r
    | none => firstCapture ps s

/-- The guarded latch of both data handlers: every write to
`session.copilotSessionId` is guarded by `!session.copilotSessionId`. -/
def latch (pats : List (List Char → Option String)) (id : Option String)
    (chunk : String) : Option String :=
  match id with
  | some v => some v
  | none => firstCapture pats chunk.toList

/-- Substring containment of one character sequence in another. -/
def containsSeq (pat : List Char) : List Char → Bool
  | [] => pat.isEmpty
  | c :: t => pat.isPrefixOf (c :: t) || containsSeq pat t

/-- `text.toLowerCase().includes('session')` (line 693). -/
def containsSession (text : String) : Bool :=
  containsSeq "session".toList (text.toList.map Char.toLower)

/-! ## Handler state and step function -/

/-- The fallback assistant content of the `close` handler (line 704). -/
def fallbackText : String :=
  "No response from Copilot CLI. Make sure GitHub Copilot CLI is installed (`npm install -g @github/copilot` or `winget install GitHub.Copilot`) and you are logged in (`copilot` then `/login`)."

/-- One spawned `copilot` child process for this session, together with the
closure state of its turn inside the `message` branch. -/
structure ProcState where
  /-- The `fullPrompt` the process was launched with. -/
  prompt : String
  /-- The closure variable `assistantContent` of this turn. -/
  acc : String
  /-- `false` once the process's `close` event has fired. -/
  alive : Bool
  /-- `true` once `proc.kill()` has been called on it. -/
  killed : Bool
deriving DecidableEq, Repr

/-- The mutable fields of the `Session` record the handler closes over
(`id`, `workspace` and `createdAt` are constant and irrelevant here). -/
structure SessionState where
  name : String
  messages : List Msg
  copilotSessionId : Option String
  model : String
deriving DecidableEq, Repr

/-- State of one WebSocket connection's handler: the session, all processes
spawned so far (in spawn order), and the `activeProcesses` entry for this
session id (`none` when the map has no entry). -/
structure ServerState where
  session : SessionState
  procs : List ProcState
  activeProc : Option Nat
deriving DecidableEq, Repr

/-- Outbound JSON frames of the chat WebSocket. -/
inductive Frame where
  | userMessage (m : Msg)
  | stream (content : String)
  | complete (m : Msg)
  | cancelled
deriving DecidableEq, Repr

/-- Which stream of the child process a chunk arrived on. -/
inductive StreamSrc where
  | stdout
  | stderr
deriving DecidableEq, Repr

/-- Inputs of the handler: inbound frames (`message`, `cancel`) and the
child-process events (`data` on either stream, `close`), the latter tagged
with the index of the process they belong to. -/
inductive Ev where
  | message (content : String)
  | stdoutData (i : Nat) (chunk : String)
  | stderrData (i : Nat) (chunk : String)
  | closed (i : Nat) (code : Option Int)
  | cancel
deriving DecidableEq, Repr

/-- The `message` branch (lines 579-639): append the user message, rename the
session on its first message, build the prompt from the prior history, spawn
a process and overwrite the `activeProcesses` entry, echo `user_message`. -/
def stepMessage (st : ServerState) (content : String) : ServerState × List Frame :=
  let userMsg : Msg := ⟨Role.user, content⟩
  let msgs := st.session.messages ++ [userMsg]
  let name :=
    if msgs.length = 1 then
      strTake content 50 ++ (if 50 < strLen content then "..." else "")
    else st.session.name
  let fullPrompt := buildPrompt msgs.dropLast content
  let newProc : ProcState := ⟨fullPrompt, "", true, false⟩
  (⟨⟨name, msgs, st.session.copilotSessionId, st.session.model⟩,
    st.procs ++ [newProc], some st.procs.length⟩,
   [Frame.userMessage userMsg])

/-- The stdout `data` handler (lines 643-666): latch the session id
(first-match-wins), append the chunk to `assistantContent`, forward it as a
`stream` frame.  Events for a process whose streams are closed do not occur;
the step is the identity there. -/
def stepStdout (st : ServerState) (i : Nat) (chunk : String) : ServerState × List Frame :=
  match st.procs[i]? with
  | none => (st, [])
  | some p =>
    if p.alive then
      (⟨⟨st.session.name, st.session.messages,
          latch stdoutPatterns st.session.copilotSessionId chunk, st.session.model⟩,
        st.procs.set i { p with acc := p.acc ++ chunk }, st.activeProc⟩,
       [Frame.stream chunk])
    else (st, [])

/-- The stderr `data` handler (lines 668-697): latch the session id, then
forward the chunk only when no pattern latched it now (`foundSessionId`) and
the lowercased text does not contain `'session'`. -/
def stepStderr (st : ServerState) (i : Nat) (chunk : String) : ServerState × List Frame :=
  match st.procs[i]? with
  | none => (st, [])
  | some p =>
    if p.alive then
      let found :=
        match st.session.copilotSessionId with
        | some _ => false
        | none => (firstCapture stderrPatterns chunk.toList).isSome
      let id := latch stderrPatterns st.session.copilotSessionId chunk
      if !found && !containsSession chunk then
        (⟨⟨st.session.name, st.session.messages, id, st.session.model⟩,
          st.procs.set i { p with acc := p.acc ++ chunk }, st.activeProc⟩,
         [Frame.stream chunk])
      else
        (⟨⟨st.session.name, st.session.messages, id, st.session.model⟩,
          st.procs, st.activeProc⟩, [])
    else (st, [])

/-- The `close` handler (lines 699-710): for any exit code, append the
accumulated content (or the fallback) as an assistant message, delete the
session's `activeProcesses` entry unconditionally, and emit `complete`. -/
def stepClosed (st : ServerState) (i : Nat) (_code : Option Int) :
    ServerState × List Frame :=
  match st.procs[i]? with
  | none => (st, [])
  | some p =>
    if p.alive then
      let m : Msg := ⟨Role.assistant, if p.acc = "" then fallbackText else p.acc⟩
      (⟨⟨st.session.name, st.session.messages ++ [m], st.session.copilotSessionId,
          st.session.model⟩,
        st.procs.set i { p with alive := false }, none⟩,
       [Frame.complete m])
    else (st, [])

/-- The `cancel` branch (lines 721-728): only when the `activeProcesses` map
has an entry for this session, kill that process, delete the entry, and send
`cancelled`; otherwise do nothing at all. -/
def stepCancel (st : ServerState) : ServerState × List Frame :=
  match st.activeProc with
  | none => (st, [])
  | some i =>
    match st.procs[i]? with
    | none => (⟨st.session, st.procs, none⟩, [Frame.cancelled])
    | some p =>
      (⟨st.session, st.procs.set i { p with killed := true }, none⟩,
       [Frame.cancelled])

/-- One step of the handler. -/
def step (st : ServerState) : Ev → ServerState × List Frame
  | Ev.message content => stepMessage st content
  | Ev.stdoutData i chunk => stepStdout st i chunk
  | Ev.stderrData i chunk => stepStderr st i chunk
  | Ev.closed i code => stepClosed st i code
  | Ev.cancel => stepCancel st

/-- Run a sequence of events, collecting all emitted frames in order. -/
def run (st : ServerState) : List Ev → ServerState × List Frame
  | [] => (st, [])
  | e :: es =>
    let r := step st e
    let r' := run r.1 es
    (r'.1, r.2 ++ r'.2)

/-- The state of a fresh connection for an unknown session id
(lines 557-567). -/
def initState : ServerState :=
  ⟨⟨"New Chat", [], none, "claude-sonnet-4"⟩, [], none⟩

/-! ## Auxiliary notions used to state the claims -/

/-- A stream-tagged chunk as a process event for process `i`. -/
def dataEv (i : Nat) : StreamSrc × String → Ev
  | (StreamSrc.stdout, c) => Ev.stdoutData i c
  | (StreamSrc.stderr, c) => Ev.stderrData i c

/-- The identifier a single chunk would latch, using the pattern list of the
stream it arrived on. -/
def chunkCapture : StreamSrc × String → Option String
  | (StreamSrc.stdout, c) => firstCapture stdoutPatterns c.toList
  | (StreamSrc.stderr, c) => firstCapture stderrPatterns c.toList

/-- The identifier of the first chunk, in arrival order, that matches a
pattern of its stream. -/
def firstChunkCapture : List (StreamSrc × String) → Option String
  | [] => none
  | ch :: rest =>
    match chunkCapture ch with
    | some v => some v
    | none => firstChunkCapture rest

/-- A session state mid-turn: one user message, one live child process. -/
def streamingState : ServerState :=
  ⟨⟨"hi", [⟨Role.user, "hi"⟩], none, "claude-sonnet-4"⟩,
    [⟨"hi", "", true, false⟩], some 0⟩

/-- A 2001-character message content. -/
def bigContent : String := String.mk (List.replicate 2001 'a')

/-! ## Helper lemmas -/

theorem strLen_mk (l : List Char) : strLen (String.mk l) = l.length := rfl

theorem toList_append (a b : String) : (a ++ b).toList = a.toList ++ b.toList := by
  cases a; cases b; rfl

theorem strLen_append (a b : String) : strLen (a ++ b) = strLen a + strLen b := by
  simp [strLen, toList_append]

theorem isPrefixOf_append_of_isPrefixOf {a b : List Char} (m : List Char)
    (h : a.isPrefixOf b = true) : a.isPrefixOf (b ++ m) = true := by
  induction a generalizing b with
  | nil => simp [List.isPrefixOf]
  | cons x xs ih =>
    cases b with
    | nil => simp [List.isPrefixOf] at h
    | cons y ys =>
      simp only [List.isPrefixOf, Bool.and_eq_true] at h ⊢
      exact ⟨h.1, ih h.2⟩

theorem isPrefixOf_containsSeq {pat s : List Char} (h : pat.isPrefixOf s = true) :
    containsSeq pat s = true := by
  cases s with
  | nil =>
    cases pat with
    | nil => rfl
    | cons x xs => simp [List.isPrefixOf] at h
  | cons c t => simp [containsSeq, h]

theorem containsSeq_append_left {pat s : List Char} (pre : List Char)
    (h : containsSeq pat s = true) : containsSeq pat (pre ++ s) = true := by
  induction pre with
  | nil => exact h
  | cons c cs ih => simp [containsSeq, ih]

theorem containsSeq_of_split (pat pre mid m : List Char)
    (h : pat.isPrefixOf mid = true) :
    containsSeq pat (pre ++ (mid ++ m)) = true :=
  containsSeq_append_left pre
    (isPrefixOf_containsSeq (isPrefixOf_append_of_isPrefixOf m h))

theorem matchLit_toLower {lit s r : List Char} (h : matchLit lit s = some r) :
    s.map Char.toLower = lit ++ r.map Char.toLower := by
  induction lit generalizing s with
  | nil =>
    simp [matchLit] at h
    simp [h]
  | cons l lt ih =>
    cases s with
    | nil => simp [matchLit] at h
    | cons c ct =>
      simp only [matchLit] at h
      by_cases hc : c.toLower = l
      · simp [hc] at h
        simp [List.map, hc, ih h]
      · simp [hc] at h

theorem scanMatch_contains {f : List Char → Option String} {pat : List Char}
    (hf : ∀ t r, f t = some r → containsSeq pat (t.map Char.toLower) = true) :
    ∀ {s : List Char} {r : String}, scanMatch f s = some r →
      containsSeq pat (s.map Char.toLower) = true := by
  intro s
  induction s with
  | nil => intro r h; simp [scanMatch] at h
  | cons c t ih =>
    intro r h
    simp only [scanMatch] at h
    cases hf0 : f (c :: t) with
    | some v => exact hf _ _ hf0
    | none =>
      rw [hf0] at h
      have := ih h
      simp only [List.map]
      exact containsSeq_append_left [c.toLower] this

theorem tryPatSessionIdColon_contains {t : List Char} {r : String}
    (h : tryPatSessionIdColon t = some r) :
    containsSeq "session".toList (t.map Char.toLower) = true := by
  simp only [tryPatSessionIdColon] at h
  cases hm : matchLit "session id: ".toList t with
  | none => rw [hm] at h; exact absurd h (by simp)
  | some rest =>
    rw [matchLit_toLower hm]
    exact containsSeq_of_split "session".toList [] "session id: ".toList _ (by decide)

theorem tryPatSessionUnderscoreId_contains {t : List Char} {r : String}
    (h : tryPatSessionUnderscoreId t = some r) :
    containsSeq "session".toList (t.map Char.toLower) = true := by
  simp only [tryPatSessionUnderscoreId] at h
  cases hm : matchLit "session".toList t with
  | none => rw [hm] at h; exact absurd h (by simp)
  | some rest =>
    rw [matchLit_toLower hm]
    exact containsSeq_of_split "session".toList [] "session".toList _ (by decide)

theorem tryPatResuming_contains {t : List Char} {r : String}
    (h : tryPatResuming t = some r) :
    containsSeq "session".toList (t.map Char.toLower) = true := by
  simp only [tryPatResuming] at h
  cases hm : matchLit "resuming session ".toList t with
  | none => rw [hm] at h; exact absurd h (by simp)
  | some rest =>
    have hsplit : ("resuming session ".toList : List Char) =
        "resuming ".toList ++ "session ".toList := by decide
    have := matchLit_toLower hm
    rw [hsplit, List.append_assoc] at this
    rw [this]
    exact containsSeq_of_split "session".toList "resuming ".toList "session ".toList _
      (by decide)

theorem tryPatSessionColon_contains {t : List Char} {r : String}
    (h : tryPatSessionColon t = some r) :
    containsSeq "session".toList (t.map Char.toLower) = true := by
  simp only [tryPatSessionColon] at h
  cases hm : matchLit "session: ".toList t with
  | none => rw [hm] at h; exact absurd h (by simp)
  | some rest =>
    rw [matchLit_toLower hm]
    exact containsSeq_of_split "session".toList [] "session: ".toList _ (by decide)

theorem tryPatSessionEq_contains {t : List Char} {r : String}
    (h : tryPatSessionEq t = some r) :
    containsSeq "session".toList (t.map Char.toLower) = true := by
  simp only [tryPatSessionEq] at h
  cases hm : matchLit "session=".toList t with
  | none => rw [hm] at h; exact absurd h (by simp)
  | some rest =>
    rw [matchLit_toLower hm]
    exact containsSeq_of_split "session".toList [] "session=".toList _ (by decide)

theorem firstCapture_stderr_contains {s : List Char} {v : String}
    (h : firstCapture stderrPatterns s = some v) :
    containsSeq "session".toList (s.map Char.toLower) = true := by
  simp only [stderrPatterns, firstCapture] at h
  cases h1 : scanMatch tryPatSessionIdColon s with
  | some r => exact scanMatch_contains (fun _ _ => tryPatSessionIdColon_contains) h1
  | none =>
  rw [h1] at h
  cases h2 : scanMatch tryPatSessionUnderscoreId s with
  | some r => exact scanMatch_contains (fun _ _ => tryPatSessionUnderscoreId_contains) h2
  | none =>
  rw [h2] at h
  cases h3 : scanMatch tryPatResuming s with
  | some r => exact scanMatch_contains (fun _ _ => tryPatResuming_contains) h3
  | none =>
  rw [h3] at h
  cases h4 : scanMatch tryPatSessionColon s with
  | some r => exact scanMatch_contains (fun _ _ => tryPatSessionColon_contains) h4
  | none =>
  rw [h4] at h
  cases h5 : scanMatch tryPatSessionEq s with
  | some r => exact scanMatch_contains (fun _ _ => tryPatSessionEq_contains) h5
  | none =>
  rw [h5] at h
  exact absurd h (by simp)

/-- If a stderr chunk does not contain `'session'` (lowercased), then no
stderr pattern matches it, so `foundSessionId` is false. -/
theorem firstCapture_stderr_none_of_not_contains {chunk : String}
    (h : containsSession chunk = false) :
    firstCapture stderrPatterns chunk.toList = none := by
  cases hc : firstCapture stderrPatterns chunk.toList with
  | none => rfl
  | some v =>
    have := firstCapture_stderr_contains hc
    rw [containsSession] at h
    rw [this] at h
    cases h

theorem latch_some (pats : List (List Char → Option String)) (v : String)
    (c : String) : latch pats (some v) c = some v := rfl

theorem stepPreservesLatchedId (st : ServerState) (e : Ev) (v : String)
    (h : st.session.copilotSessionId = some v) :
    ((step st e).1).session.copilotSessionId = some v := by
  cases e with
  | message content => simp [step, stepMessage, h]
  | stdoutData i chunk =>
    cases hp : st.procs[i]? with
    | none => simpa [step, stepStdout, hp] using h
    | some p =>
      cases ha : p.alive
      · simpa [step, stepStdout, hp, ha] using h
      · simp [step, stepStdout, hp, ha, latch, h]
  | stderrData i chunk =>
    cases hp : st.procs[i]? with
    | none => simpa [step, stepStderr, hp] using h
    | some p =>
      cases ha : p.alive
      · simpa [step, stepStderr, hp, ha] using h
      · simp only [step, stepStderr, hp, ha]
        split <;> try split
        all_goals simp_all [latch]
  | closed i code =>
    cases hp : st.procs[i]? with
    | none => simpa [step, stepClosed, hp] using h
    | some p =>
      cases ha : p.alive
      · simpa [step, stepClosed, hp, ha] using h
      · simpa [step, stepClosed, hp, ha] using h
  | cancel =>
    cases hap : st.activeProc with
    | none => simpa [step, stepCancel, hap] using h
    | some i =>
      cases hp : st.procs[i]? <;> simpa [step, stepCancel, hap, hp] using h

theorem runPreservesLatchedId (evs : List Ev) :
    ∀ (st : ServerState) (v : String),
      st.session.copilotSessionId = some v →
      ((run st evs).1).session.copilotSessionId = some v := by
  induction evs with
  | nil => intro st v h; simpa [run] using h
  | cons e es ih =>
    intro st v h
    simp only [run]
    exact ih _ v (stepPreservesLatchedId st e v h)

theorem dataStep_id (st : ServerState) (i : Nat) (p : ProcState)
    (ch : StreamSrc × String) (hp : st.procs[i]? = some p) (ha : p.alive = true)
    (hid : st.session.copilotSessionId = none) :
    ((step st (dataEv i ch)).1).session.copilotSessionId = chunkCapture ch := by
  obtain ⟨src, c⟩ := ch
  cases src with
  | stdout =>
    simp only [dataEv, step, stepStdout, hp, ha]
    simp [latch, hid, chunkCapture]
  | stderr =>
    simp only [dataEv, step, stepStderr, hp, ha]
    split <;> try split
    all_goals simp_all [latch, chunkCapture]

theorem dataStep_procs (st : ServerState) (i : Nat) (p : ProcState)
    (ch : StreamSrc × String) (hp : st.procs[i]? = some p) (ha : p.alive = true) :
    ∃ p', ((step st (dataEv i ch)).1).procs[i]? = some p' ∧ p'.alive = true := by
  have hlen : i < st.procs.length := (List.getElem?_eq_some.mp hp).1
  obtain ⟨src, c⟩ := ch
  cases src with
  | stdout =>
    simp only [dataEv, step, stepStdout, hp, ha]
    exact ⟨{ p with acc := p.acc ++ c, alive := true },
      by simp [List.getElem?_set_self, hlen], rfl⟩
  | stderr =>
    simp only [dataEv, step, stepStderr, hp, ha]
    split <;> try split
    · exact ⟨{ p with acc := p.acc ++ c, alive := true },
        by simp [List.getElem?_set_self, hlen], rfl⟩
    · exact ⟨p, by simp [hp], ha⟩
    · simp_all

theorem runData_id (chunks : List (StreamSrc × String)) :
    ∀ (st : ServerState) (i : Nat) (p : ProcState),
      st.procs[i]? = some p → p.alive = true →
      st.session.copilotSessionId = none →
      ((run st (chunks.map (dataEv i))).1).session.copilotSessionId =
        firstChunkCapture chunks := by
  induction chunks with
  | nil => intro st i p _ _ hid; simpa [run, firstChunkCapture] using hid
  | cons ch rest ih =>
    intro st i p hp ha hid
    simp only [List.map, run]
    cases hcc : chunkCapture ch with
    | some v =>
      have h1 : ((step st (dataEv i ch)).1).session.copilotSessionId = some v := by
        rw [dataStep_id st i p ch hp ha hid, hcc]
      rw [runPreservesLatchedId _ _ v h1]
      simp [firstChunkCapture, hcc]
    | none =>
      have h1 : ((step st (dataEv i ch)).1).session.copilotSessionId = none := by
        rw [dataStep_id st i p ch hp ha hid, hcc]
      obtain ⟨p', hp', ha'⟩ := dataStep_procs st i p ch hp ha
      rw [ih _ i p' hp' ha' h1]
      simp [firstChunkCapture, hcc]

theorem escapeChars_append (a b : List Char) :
    escapeChars (a ++ b) = escapeChars a ++ escapeChars b := by
  simp [escapeChars, replAll, List.flatMap_append]

theorem escapeChars_single (c : Char) : escapeChars [c] = escapeSpecChar c := by
  by_cases h1 : c = '\\'
  · subst h1; decide
  by_cases h2 : c = '"'
  · subst h2; decide
  by_cases h3 : c = backtick
  · subst h3; decide
  by_cases h4 : c = '$'
  · subst h4; decide
  by_cases h5 : c = '!'
  · subst h5; decide
  by_cases h6 : c = newlineChar
  · subst h6; decide
  by_cases h7 : c = carriageReturn
  · subst h7; decide
  simp [escapeChars, replAll, escapeSpecChar, h1, h2, h3, h4, h5, h6, h7]

theorem escapeChars_eq (l : List Char) : escapeChars l = l.flatMap escapeSpecChar := by
  induction l with
  | nil => rfl
  | cons c t ih =>
    have : (c :: t) = [c] ++ t := rfl
    rw [this, escapeChars_append, escapeChars_single, ih, List.flatMap_append]
    simp

theorem strLen_strTake_le (s : String) (n : Nat) : strLen (strTake s n) ≤ n := by
  simp only [strTake, strLen_mk]
  exact List.length_take_le n s.toList

theorem renderMsg_len (m : Msg) : strLen (renderMsg m) ≤ 2026 := by
  have hHuman : strLen "Human" = 5 := by decide
  have hAssistant : strLen "Assistant" = 9 := by decide
  have hColon : strLen ": " = 2 := by decide
  have hMarker : strLen "... [truncated]" = 15 := by decide
  have htake := strLen_strTake_le m.content 2000
  by_cases hr : m.role = Role.user <;> by_cases hc : 2000 < strLen m.content <;>
    simp only [renderMsg, hr, hc, if_true, if_false, strLen_append, hHuman,
      hAssistant, hColon, hMarker, reduceIte] <;> omega

theorem joinSep_len_le (B : Nat) :
    ∀ pieces : List String, (∀ x ∈ pieces, strLen x ≤ B) →
      strLen (joinSep "\n\n" pieces) ≤ pieces.length * (B + 2) := by
  intro pieces
  induction pieces with
  | nil => intro _; simp [joinSep, strLen]
  | cons x xs ih =>
    intro h
    cases xs with
    | nil =>
      have := h x (by simp)
      simpa [joinSep] using le_trans this (by omega)
    | cons y ys =>
      have hx := h x (by simp)
      have hrest := ih (fun z hz => h z (by simp [hz]))
      have hsep : strLen "\n\n" = 2 := by decide
      calc strLen (joinSep "\n\n" (x :: y :: ys))
          = strLen x + 2 + strLen (joinSep "\n\n" (y :: ys)) := by
            simp [joinSep, strLen_append, hsep]
        _ ≤ B + 2 + (y :: ys).length * (B + 2) := by omega
        _ = (x :: y :: ys).length * (B + 2) := by simp [List.length_cons]; ring

theorem renderHistory_len_le (history : List Msg) :
    strLen (renderHistory history) ≤ history.length * 2028 := by
  have h := joinSep_len_le 2026 (history.map renderMsg) (by
    intro x hx
    obtain ⟨m, _, rfl⟩ := List.mem_map.mp hx
    exact renderMsg_len m)
  simpa [renderHistory] using h

/-! ## Claims -/

/-- C5: for every turn whose child process exits, with any exit code, a
`complete` frame is emitted carrying the accumulated content as the assistant
message — with the fixed fallback string substituted when the accumulation is
empty — and that assistant message is appended to the session. -/
theorem claim_C5_close_always_completes (st : ServerState) (i : Nat)
    (p : ProcState) (code : Option Int)
    (hp : st.procs[i]? = some p) (ha : p.alive = true) :
    (step st (Ev.closed i code)).2 =
      [Frame.complete ⟨Role.assistant, if p.acc = "" then fallbackText else p.acc⟩] ∧
    ((step st (Ev.closed i code)).1).session.messages =
      st.session.messages ++
        [⟨Role.assistant, if p.acc = "" then fallbackText else p.acc⟩] := by
  constructor <;> simp [step, stepClosed, hp, ha]

/-- C5 witness: a process with empty accumulated content exits with code 1;
the emitted assistant message is the fallback text. -/
theorem claim_C5_witness :
    streamingState.procs[0]? = some ⟨"hi", "", true, false⟩ ∧
    (step streamingState (Ev.closed 0 (some 1))).2 =
      [Frame.complete ⟨Role.assistant,
        if ("" : String) = "" then fallbackText else ""⟩] :=
  ⟨rfl, (claim_C5_close_always_completes streamingState 0 ⟨"hi", "", true, false⟩
    (some 1) rfl rfl).1⟩

/-- C6 counterexample: the truncation marker in the code is
`'... [truncated]'` (with a space), not `"...[truncated]"` as the claim
states; at a 2001-character content the two renderings differ. -/
theorem claim_C6_counterexample :
    renderMsg ⟨Role.user, bigContent⟩ ≠
      "Human: " ++ String.mk (List.replicate 2000 'a') ++ "...[truncated]" := by
  intro h
  have hbig : strLen bigContent = 2001 := by
    rw [bigContent, strLen_mk, List.length_replicate]
  have htake : strLen (strTake bigContent 2000) = 2000 := by
    rw [bigContent]
    show ((List.replicate 2001 'a').take 2000).length = 2000
    rw [List.take_replicate, List.length_replicate]
    omega
  have l1 : strLen "Human" = 5 := rfl
  have l2 : strLen ": " = 2 := rfl
  have l3 : strLen "... [truncated]" = 15 := rfl
  have l4 : strLen "Human: " = 7 := rfl
  have l5 : strLen "...[truncated]" = 14 := rfl
  have hL : strLen (renderMsg ⟨Role.user, bigContent⟩) = 2022 := by
    have hc : 2000 < strLen bigContent := by rw [hbig]; omega
    show strLen ((if (Role.user = Role.user) then "Human" else "Assistant") ++ ": " ++
      (if 2000 < strLen bigContent then strTake bigContent 2000 ++ "... [truncated]"
       else bigContent)) = 2022
    rw [if_pos rfl, if_pos hc, strLen_append, strLen_append, strLen_append, htake,
      l1, l2, l3]
  have hR : strLen ("Human: " ++ String.mk (List.replicate 2000 'a') ++
      "...[truncated]") = 2021 := by
    rw [strLen_append, strLen_append, l4, l5, strLen_mk, List.length_replicate]
  rw [h, hR] at hL
  exact absurd hL (by omega)

/-- C6 (amended): each prior message is rendered as `"<RoleLabel>: <content>"`
with content longer than 2000 characters truncated to 2000 characters followed
by the marker `"... [truncated]"` (with a space), and the rendered history
never exceeds `len(history) * 2028` characters (2000 plus label, marker and
separator overhead). -/
theorem claim_C6_render_truncation_and_bound :
    (∀ m : Msg, 2000 < strLen m.content →
      renderMsg m = (if m.role = Role.user then "Human" else "Assistant") ++ ": " ++
        (strTake m.content 2000 ++ "... [truncated]")) ∧
    (∀ history : List Msg, strLen (renderHistory history) ≤ history.length * 2028) := by
  constructor
  · intro m h
    simp [renderMsg, h]
  · exact renderHistory_len_le

/-- C6 witness: the truncation equation applied at a 2001-character content. -/
theorem claim_C6_witness :
    2000 < strLen bigContent ∧
    renderMsg ⟨Role.user, bigContent⟩ =
      "Human" ++ ": " ++ (strTake bigContent 2000 ++ "... [truncated]") := by
  have hc : 2000 < strLen bigContent := by
    rw [bigContent, strLen_mk, List.length_replicate]; omega
  exact ⟨hc, claim_C6_render_truncation_and_bound.1 ⟨Role.user, bigContent⟩ hc⟩

/-- C7: when the session history is empty, the prompt the child process is
launched with is the new user content verbatim (no wrapper, preamble or
postamble): the spawned process record carries exactly `content`. -/
theorem claim_C7_empty_history_verbatim_prompt (st : ServerState)
    (content : String) (h : st.session.messages = []) :
    ((step st (Ev.message content)).1).procs =
      st.procs ++ [⟨content, "", true, false⟩] := by
  simp [step, stepMessage, h, buildPrompt]

/-- C7 witness: the first turn of a fresh session is launched with prompt
`"2+2?"` verbatim. -/
theorem claim_C7_witness :
    initState.session.messages = [] ∧
    ((step initState (Ev.message "2+2?")).1).procs =
      initState.procs ++ [⟨"2+2?", "", true, false⟩] :=
  ⟨rfl, claim_C7_empty_history_verbatim_prompt initState "2+2?" rfl⟩

/-- C8: the shell-escaping applied to the prompt equals the per-character
escaping map that escapes every occurrence of backslash, double quote,
backtick, dollar sign, exclamation mark and newline (and drops carriage
returns); being a Lean function it is deterministic and pure. -/
theorem claim_C8_escape_every_occurrence (s : String) :
    escapeForShell s = escapeSpec s := by
  simp [escapeForShell, escapeSpec, escapeChars_eq]

/-- C9: a `cancel` frame received while the session has no live process
changes nothing and emits no frame at all. -/
theorem claim_C9_cancel_idle_noop (st : ServerState)
    (h : st.activeProc = none) : step st Ev.cancel = (st, []) := by
  simp [step, stepCancel, h]

/-- C9 witness: cancelling a fresh idle session is a no-op. -/
theorem claim_C9_witness :
    initState.activeProc = none ∧ step initState Ev.cancel = (initState, []) :=
  ⟨rfl, claim_C9_cancel_idle_noop initState rfl⟩

/-- C10: handling a `message` frame on a session with no prior messages sets
the session name to the first 50 characters of the content, with `"..."`
appended exactly when the content is longer than 50 characters; any later
message leaves the name unchanged. -/
theorem claim_C10_first_message_names_session :
    (∀ (st : ServerState) (c : String), st.session.messages = [] →
      ((step st (Ev.message c)).1).session.name =
        strTake c 50 ++ (if 50 < strLen c then "..." else "")) ∧
    (∀ (st : ServerState) (c : String), st.session.messages ≠ [] →
      ((step st (Ev.message c)).1).session.name = st.session.name) := by
  constructor
  · intro st c h
    simp [step, stepMessage, h]
  · intro st c h
    have hne : st.session.messages.length ≠ 0 :=
      fun h0 => h (List.length_eq_zero.mp h0)
    simp [step, stepMessage, hne]

/-- C10 witness: the first message of a fresh session renames it. -/
theorem claim_C10_witness :
    initState.session.messages = [] ∧
    ((step initState (Ev.message "hello")).1).session.name =
      strTake "hello" 50 ++ (if 50 < strLen "hello" then "..." else "") :=
  ⟨rfl, claim_C10_first_message_names_session.1 initState "hello" rfl⟩

/-- C4: once a continuation identifier is latched it is never overwritten by
any later event, and over any sequence of data chunks on either stream the
stored identifier equals the capture of the first matching chunk in
chunk-arrival order. -/
theorem claim_C4_first_match_wins :
    (∀ (st : ServerState) (e : Ev) (v : String),
      st.session.copilotSessionId = some v →
      ((step st e).1).session.copilotSessionId = some v) ∧
    (∀ (st : ServerState) (i : Nat) (p : ProcState)
      (chunks : List (StreamSrc × String)),
      st.procs[i]? = some p → p.alive = true →
      st.session.copilotSessionId = none →
      ((run st (chunks.map (dataEv i))).1).session.copilotSessionId =
        firstChunkCapture chunks) :=
  ⟨stepPreservesLatchedId, fun st i p chunks hp ha hid =>
    runData_id chunks st i p hp ha hid⟩

/-- C4 witness: a non-matching stderr chunk followed by two matching stdout
chunks; the latched identifier is that of the first matching chunk. -/
theorem claim_C4_witness :
    streamingState.procs[0]? = some ⟨"hi", "", true, false⟩ ∧
    (⟨"hi", "", true, false⟩ : ProcState).alive = true ∧
    streamingState.session.copilotSessionId = none ∧
    ((run streamingState
        ([(StreamSrc.stderr, "plain text"), (StreamSrc.stdout, "Session ID: abc-123"),
          (StreamSrc.stdout, "Session: zzz-9")].map (dataEv 0))).1).session.copilotSessionId =
      firstChunkCapture
        [(StreamSrc.stderr, "plain text"), (StreamSrc.stdout, "Session ID: abc-123"),
          (StreamSrc.stdout, "Session: zzz-9")] :=
  ⟨rfl, rfl, rfl,
    claim_C4_first_match_wins.2 streamingState 0 ⟨"hi", "", true, false⟩
      [(StreamSrc.stderr, "plain text"), (StreamSrc.stdout, "Session ID: abc-123"),
        (StreamSrc.stdout, "Session: zzz-9")] rfl rfl rfl⟩

/-- C3 counterexample: the stderr chunk `"no such session here"` matches no
continuation-identifier pattern, yet it is suppressed (no `stream` frame, no
append to the accumulated content), because the code also suppresses any
stderr chunk whose lowercased text contains the substring `'session'`. -/
theorem claim_C3_counterexample :
    firstCapture stderrPatterns "no such session here".toList = none ∧
    (step streamingState (Ev.stderrData 0 "no such session here")).2 = [] ∧
    ((step streamingState (Ev.stderrData 0 "no such session here")).1).procs =
      streamingState.procs :=
  ⟨by decide, by decide, by decide⟩

/-- C3 (amended): a stderr chunk is suppressed if and only if its lowercased
text contains the substring `'session'` (every pattern match implies that
substring, and chunks containing it are suppressed even without a pattern
match); all other stderr chunks are forwarded as `stream` frames and appended
to the accumulated assistant content. -/
theorem claim_C3_stderr_suppression_rule (st : ServerState) (i : Nat)
    (p : ProcState) (chunk : String)
    (hp : st.procs[i]? = some p) (ha : p.alive = true) :
    (step st (Ev.stderrData i chunk)).2 =
      (if containsSession chunk then [] else [Frame.stream chunk]) ∧
    ((step st (Ev.stderrData i chunk)).1).procs[i]? =
      some (if containsSession chunk then p
            else { p with acc := p.acc ++ chunk }) := by
  have hlen : i < st.procs.length := (List.getElem?_eq_some.mp hp).1
  by_cases hc : containsSession chunk
  · constructor <;> simp [step, stepStderr, hp, ha, hc]
  · have hf : firstCapture stderrPatterns chunk.toList = none :=
      firstCapture_stderr_none_of_not_contains (by simpa using hc)
    have hf' : firstCapture stderrPatterns chunk.data = none := hf
    cases hid : st.session.copilotSessionId with
    | none =>
      constructor <;>
        simp [step, stepStderr, hp, ha, hc, hf, hf', hid, List.getElem?_set_self, hlen]
    | some v =>
      constructor <;>
        simp [step, stepStderr, hp, ha, hc, hf, hf', hid, List.getElem?_set_self, hlen]

/-- C3 witness: an ordinary stderr chunk is forwarded and appended. -/
theorem claim_C3_witness :
    streamingState.procs[0]? = some ⟨"hi", "", true, false⟩ ∧
    (step streamingState (Ev.stderrData 0 "partial output")).2 =
      (if containsSession "partial output" then []
       else [Frame.stream "partial output"]) :=
  ⟨rfl, (claim_C3_stderr_suppression_rule streamingState 0 ⟨"hi", "", true, false⟩
    "partial output" rfl rfl).1⟩

/-- C1 counterexample: after `message "hi"` then `cancel`, the killed
process's close event still runs the unguarded close handler: a `complete`
frame follows the `cancelled` frame and the accumulated (here fallback)
content is appended to the session as an assistant message. -/
theorem claim_C1_counterexample :
    (run initState [Ev.message "hi", Ev.cancel, Ev.closed 0 none]).2 =
      [Frame.userMessage ⟨Role.user, "hi"⟩, Frame.cancelled,
        Frame.complete ⟨Role.assistant, fallbackText⟩] ∧
    ((run initState [Ev.message "hi", Ev.cancel, Ev.closed 0 none]).1).session.messages =
      [⟨Role.user, "hi"⟩, ⟨Role.assistant, fallbackText⟩] :=
  ⟨rfl, rfl⟩

/-- C1 (amended): `cancel` while streaming kills the live process, emits
exactly `Cancelled`, and clears the handle; but the accumulated content is not
discarded — when the killed process's close event fires, a `complete` frame is
still emitted and the accumulated content (or the fallback) is appended as an
assistant message. -/
theorem claim_C1_cancel_then_close (st : ServerState) (i : Nat) (p : ProcState)
    (h : st.activeProc = some i) (hp : st.procs[i]? = some p) :
    step st Ev.cancel =
      (⟨st.session, st.procs.set i { p with killed := true }, none⟩,
        [Frame.cancelled]) ∧
    (∀ code : Option Int, p.alive = true →
      (step (step st Ev.cancel).1 (Ev.closed i code)).2 =
        [Frame.complete ⟨Role.assistant,
          if p.acc = "" then fallbackText else p.acc⟩] ∧
      ((step (step st Ev.cancel).1 (Ev.closed i code)).1).session.messages =
        st.session.messages ++
          [⟨Role.assistant, if p.acc = "" then fallbackText else p.acc⟩]) := by
  have hlen : i < st.procs.length := (List.getElem?_eq_some.mp hp).1
  have hcancel : step st Ev.cancel =
      (⟨st.session, st.procs.set i { p with killed := true }, none⟩,
        [Frame.cancelled]) := by
    simp [step, stepCancel, h, hp]
  refine ⟨hcancel, fun code ha => ?_⟩
  rw [hcancel]
  constructor <;> simp [step, stepClosed, List.getElem?_set_self, hlen, ha]

/-- C1 witness: cancelling the streaming session and then closing the killed
process emits a `complete` frame with the fallback content. -/
theorem claim_C1_witness :
    streamingState.activeProc = some 0 ∧
    (step (step streamingState Ev.cancel).1 (Ev.closed 0 none)).2 =
      [Frame.complete ⟨Role.assistant,
        if ("" : String) = "" then fallbackText else ""⟩] :=
  ⟨rfl, ((claim_C1_cancel_then_close streamingState 0 ⟨"hi", "", true, false⟩
    rfl rfl).2 none rfl).1⟩

/-- C2 counterexample: a second `message` frame while the first process is
still live is not rejected: it is processed normally (its `user_message` echo
is emitted) and a second process is spawned, leaving two live, unkilled child
processes for the same session. -/
theorem claim_C2_counterexample :
    (run initState [Ev.message "a", Ev.message "b"]).2 =
      [Frame.userMessage ⟨Role.user, "a"⟩, Frame.userMessage ⟨Role.user, "b"⟩] ∧
    ((run initState [Ev.message "a", Ev.message "b"]).1).procs.map ProcState.alive =
      [true, true] ∧
    ((run initState [Ev.message "a", Ev.message "b"]).1).procs.map ProcState.killed =
      [false, false] :=
  ⟨rfl, rfl, rfl⟩

/-- C2 (amended): a `message` frame received while the session is already
streaming is not rejected: it spawns another process and overwrites the
session's active-process entry with the new handle, while the prior process
record is left untouched (in particular still live and unkilled), so two live
processes exist for one session. -/
theorem claim_C2_second_turn_spawns (st : ServerState) (i : Nat) (p : ProcState)
    (c : String) (_h : st.activeProc = some i) (hp : st.procs[i]? = some p)
    (_ha : p.alive = true) (_hk : p.killed = false) :
    ((step st (Ev.message c)).1).activeProc = some st.procs.length ∧
    ((step st (Ev.message c)).1).procs[i]? = some p ∧
    ((step st (Ev.message c)).1).procs[st.procs.length]? =
      some ⟨buildPrompt st.session.messages c, "", true, false⟩ := by
  have hlen : i < st.procs.length := (List.getElem?_eq_some.mp hp).1
  refine ⟨by simp [step, stepMessage], ?_, ?_⟩
  · simp [step, stepMessage, List.getElem?_append, hlen, hp]
  · simp [step, stepMessage, List.getElem?_append]

/-- C2 witness: a second turn on the streaming session spawns a second
process and overwrites the handle; the first process record is unchanged. -/
theorem claim_C2_witness :
    streamingState.activeProc = some 0 ∧
    ((step streamingState (Ev.message "again")).1).activeProc =
      some streamingState.procs.length ∧
    ((step streamingState (Ev.message "again")).1).procs[0]? =
      some ⟨"hi", "", true, false⟩ :=
  ⟨rfl,
    (claim_C2_second_turn_spawns streamingState 0 ⟨"hi", "", true, false⟩ "again"
      rfl rfl rfl rfl).1,
    (claim_C2_second_turn_spawns streamingState 0 ⟨"hi", "", true, false⟩ "again"
      rfl rfl rfl rfl).2.1⟩

end CopilotServer
